import Mathlib

/-!
Shallow embedding of noflo `src/lib/ProcessInput.js` (the inbound-packet
gateway of a flow-based-programming node) together with the external
collaborator contracts it relies on (`InPort.has`/`InPort.get`, the node
instance's activation and bracket-context bookkeeping), and proofs of the
behavioural properties stated about it.

Modelling conventions:
- JS packets (`IP`) are records with a three-way `type` tag and a payload
  (`data`); payloads and bracket labels are modelled as integers.
- The `ProcessInput` instance's ambient objects (`this.ports`,
  `this.context`, `this.result`, `this.nodeInstance`) are gathered into one
  explicit state record `PState`; the per-instance `scope` is fixed, so
  buffers and bracket stacks are keyed by `(port, index)` only.
- JS exceptions are modelled with `Except JsErr`; `JsErr.error` stands for
  an explicitly thrown `new Error(msg)` and `JsErr.typeError` for an
  engine-level TypeError (property access on `undefined`/`null`).
  Mutating operations return the state reached so far even when they throw,
  matching the persistence of side effects past a JS `throw`.
- JS arrays used as stacks (`push`/`pop` at the end) are modelled as Lean
  lists with the head as the stack top; `Array.prototype.slice(0)` (a copy)
  is modelled by storing the list value itself.
- The unbounded `while` loops of `getData`/`getStream` are given explicit
  fuel; every call site supplies `totalSize st + 1`, which bounds the number
  of packets any chain of reads can consume.
-/

namespace NoFlo

/-- The three-way type tag of an information packet. -/
inductive IPType where
  | data
  | openBracket
  | closeBracket
deriving DecidableEq, Repr

/-- Payloads and bracket labels. -/
abbrev Val := Int

/-- An information packet: type tag plus payload (for brackets, the label). -/
structure IP where
  type : IPType
  data : Val
deriving DecidableEq, Repr

/-- Build a data packet. -/
def mkData (x : Val) : IP := ⟨IPType.data, x⟩

/-- Build an open-bracket packet carrying label `l`. -/
def mkOB (l : Val) : IP := ⟨IPType.openBracket, l⟩

/-- Build a close-bracket packet carrying label `l`. -/
def mkCB (l : Val) : IP := ⟨IPType.closeBracket, l⟩

/-- A JS exception: `error` is a thrown `new Error(msg)`, `typeError` an
engine TypeError such as a property access on `undefined`. -/
inductive JsErr where
  | error (msg : String)
  | typeError (msg : String)
deriving DecidableEq, Repr

/-- JS functions returning either one value or an array of them. -/
inductive OneOrMany (α : Type) where
  | one (x : α)
  | many (l : List α)
deriving DecidableEq, Repr

/-- Association-list lookup (JS object property access). -/
def findAssoc {κ α : Type} [DecidableEq κ] (k : κ) : List (κ × α) → Option α
  | [] => none
  | (k', v) :: rest => if k' = k then some v else findAssoc k rest

/-- Association-list update (JS object property assignment). -/
def setAssoc {κ α : Type} [DecidableEq κ] (k : κ) (v : α) : List (κ × α) → List (κ × α)
  | [] => [(k, v)]
  | (k', v') :: rest => if k' = k then (k, v) :: rest else (k', v') :: setAssoc k v rest

/-- A bracket-context stack frame (pushed when an open bracket is consumed on
a forwarding port): the opening packet, the output ports it was forwarded to,
the originating port, and — once popped — the closing packet. -/
structure Frame where
  ip : IP
  ports : List String
  source : String
  closeIp : Option IP
deriving DecidableEq, Repr

/-- An input port, as seen through the external collaborator contract:
addressability flag, attachment list, and per-index packet buffers
(the gateway's `scope` is fixed, so it is omitted from the key; a
non-addressable port's single buffer sits at key `none`). -/
structure InPort where
  addressable : Bool
  attachedList : List Nat
  buffers : List (Option Nat × List IP)
deriving DecidableEq, Repr

/-- The per-invocation result object (`this.result`): `resolved` models
`__resolved`, `bracketClosingBefore` models `__bracketClosingBefore` and
`bracketContext` models `__bracketContext`; `none` stands for a JS field
that has not been assigned yet. -/
structure Result where
  resolved : Option Bool
  bracketClosingBefore : Option (List Frame)
  bracketContext : Option (List (String × List Frame))
deriving DecidableEq, Repr

/-- The gateway state: the node's registered inports, the processing
context's activation flag, and the node instance's load counter, ordered
flag, forwarding-inport set and bracket-context stacks (keyed by
`(port, index)`; direction and scope are fixed). -/
structure PState where
  ports : List (String × InPort)
  activated : Bool
  load : Nat
  ordered : Bool
  forwarding : List String
  brackets : List ((String × Option Nat) × List Frame)
  result : Result
deriving DecidableEq, Repr

/-- Look up a registered port (`this.ports[name]`). -/
def lookupPort (st : PState) (name : String) : Option InPort :=
  findAssoc name st.ports

/-- The packet buffer of a port at an index (external `InPort` storage; a
missing partition reads as the empty buffer). -/
def getBuffer (st : PState) (port : String) (idx : Option Nat) : List IP :=
  match lookupPort st port with
  | none => []
  | some p => (findAssoc idx p.buffers).getD []

/-- Replace the packet buffer of a port at an index. -/
def setBuffer (st : PState) (port : String) (idx : Option Nat) (buf : List IP) : PState :=
  match lookupPort st port with
  | none => st
  | some p =>
    { st with ports := setAssoc port { p with buffers := setAssoc idx buf p.buffers } st.ports }

/-- The bracket-context stack for `(port, index)`
(`nodeInstance.getBracketContext('in', port, scope, idx)`); head is the top. -/
def getStack (st : PState) (port : String) (idx : Option Nat) : List Frame :=
  (findAssoc (port, idx) st.brackets).getD []

/-- Replace the bracket-context stack for `(port, index)`. -/
def setStack (st : PState) (port : String) (idx : Option Nat) (s : List Frame) : PState :=
  { st with brackets := setAssoc (port, idx) s st.brackets }

/-- Push a frame on the live bracket-context stack (JS `stack.push(frame)`). -/
def pushFrame (st : PState) (port : String) (idx : Option Nat) (f : Frame) : PState :=
  setStack st port idx (f :: getStack st port idx)

/-- Total number of buffered packets across all ports and indices; used as
fuel for the read loops, every iteration of which consumes at least one. -/
def totalSize (st : PState) : Nat :=
  st.ports.foldl (fun n pr => n + pr.2.buffers.foldl (fun m br => m + br.2.length) 0) 0

/-- The `activate` method: a no-op when the context is already activated;
otherwise, for ordered components, marks the result unresolved, then calls
the external `nodeInstance.activate(context)`, which marks the context
activated and increments the node load (spec section 4.2; the debug logging
is omitted). -/
def activate (st : PState) : PState :=
  if st.activated then st
  else
    let st1 := if st.ordered then
      { st with result := { st.result with resolved := some false } }
    else st
    { st1 with activated := true, load := st1.load + 1 }

/-- Loop body of `attached`: walks the port names, throwing on an unknown
port, collecting each port's attachment list. -/
def attachedLoop (st : PState) : List String → List (List Nat) → Except JsErr (List (List Nat))
  | [], acc => .ok acc
  | port :: rest, acc =>
    match lookupPort st port with
    | none => .error (.error ("Node has no port " ++ port))
    | some p => attachedLoop st rest (acc ++ [p.attachedList])

/-- The `attached` method: defaults to port `in` on a zero-argument call;
returns the single list for one argument (`res.pop()`), the list of lists
otherwise. -/
def attached (params : List String) (st : PState) : Except JsErr (OneOrMany (List Nat)) :=
  let args := if params.isEmpty then ["in"] else params
  match attachedLoop st args [] with
  | .error e => .error e
  | .ok res =>
    if args.length = 1 then .ok (.one ((res.getLast?).getD []))
    else .ok (.many res)

/-- State carried by a (possibly stateful) validation callback: the open
bracket labels seen so far and the remembered data verdict. Plain
validators ignore it. -/
abbrev VSt := List Val × Bool

/-- A validation callback as passed to the external `InPort.has`: it may
close over mutable locals, so it is modelled as state-passing. -/
abbrev Validator := IP → VSt → Bool × VSt

/-- Arguments accepted by `has`: a plain port name, a `[name, idx]` array, or
a trailing validation function (bundled with its closure's initial state). -/
inductive HasArg where
  | str (s : String)
  | pair (name : String) (idx : Nat)
  | fn (v : Validator) (v0 : VSt)

/-- External `InPort.has(scope, validate)` over one buffer: applies the
callback to each packet in order, short-circuiting at the first `true`
(JS `Array.prototype.some`). -/
def bufSome (buf : List IP) (v : Validator) (vs : VSt) : Bool × VSt :=
  match buf with
  | [] => (false, vs)
  | ip :: rest =>
    let r := v ip vs
    if r.1 then (true, r.2) else bufSome rest v r.2

/-- Loop body of `has` over the filtered (string-only) port names: throws on
an unknown or addressable port, otherwise consults the port's buffer without
consuming; returns `false` as soon as one port has no match. The source's
`Array.isArray` branch is unreachable here because the argument filter keeps
only strings. -/
def hasLoop (st : PState) : List String → Validator → VSt → Except JsErr Bool
  | [], _, _ => .ok true
  | port :: rest, v, vs =>
    match lookupPort st port with
    | none => .error (.error ("Node has no port " ++ port))
    | some p =>
      if p.addressable then
        .error (.error "For addressable ports, access must be with array portname idx")
      else
        let r := bufSome ((findAssoc (none : Option Nat) p.buffers).getD []) v vs
        if r.1 then hasLoop st rest v r.2 else .ok false

/-- The `has` method: filters the parameters down to the string ones
(arrays and functions are dropped), defaults to `in` when no strings
remain, takes the validator from the last parameter when it is a function,
and ANDs the per-port checks. Read-only: the state is returned unchanged,
mirroring the absence of any mutation in the source. -/
def has (params : List HasArg) (st : PState) : Except JsErr Bool × PState :=
  let strs := params.filterMap (fun a => match a with | .str s => some s | _ => none)
  let args := if strs.isEmpty then ["in"] else strs
  match params.getLast? with
  | some (.fn v v0) => (hasLoop st args v v0, st)
  | _ => (hasLoop st args (fun _ vs => (true, vs)) ([], false), st)

/-- The validator appended by `hasData`: accepts exactly data packets. -/
def dataValidate : Validator :=
  fun ip vs => (match ip.type with | IPType.data => true | _ => false, vs)

/-- The `hasData` method: `has` with a data-only validator appended as the
last argument. -/
def hasData (params : List HasArg) (st : PState) : Except JsErr Bool × PState :=
  has (params ++ [.fn dataValidate ([], false)]) st

/-- The stateful stream-completeness validator built inside `hasStream` for
each port: tracks the open-bracket labels (`portBrackets`, head is top) and
the remembered data verdict (`hasData`), exactly as the closure in the
source. A close bracket on an empty label list pops nothing (JS `pop()` on
an empty array). -/
def streamValidate (vstream : IP → List Val → Bool) : Validator :=
  fun ip vs =>
    match ip.type with
    | IPType.openBracket => (false, (ip.data :: vs.1, vs.2))
    | IPType.data =>
      let hd := vstream ip vs.1
      if vs.1.isEmpty then (hd, (vs.1, hd)) else (false, (vs.1, hd))
    | IPType.closeBracket =>
      let pb := vs.1.tail
      if pb.isEmpty then (vs.2, (pb, vs.2)) else (false, (pb, vs.2))

/-- Arguments accepted by `hasStream`: port names, `[name, idx]` arrays, or a
trailing stream-validation function `(packet, openLabels) -> bool`. -/
inductive StreamArg where
  | str (s : String)
  | pair (name : String) (idx : Nat)
  | sfn (f : IP → List Val → Bool)

/-- Reuse of a `hasStream` argument as a `has` argument (a function argument
in port position is simply dropped by the `has` filter, as in the source). -/
def toHasArg : StreamArg → HasArg
  | .str s => .str s
  | .pair n i => .pair n i
  | .sfn f => .fn (fun ip vs => (f ip vs.1, vs)) ([], false)

/-- Loop body of `hasStream`: one `has` call per remaining port argument,
each with a freshly initialised stream validator. -/
def hasStreamLoop (vstream : IP → List Val → Bool) :
    List StreamArg → PState → Except JsErr Bool × PState
  | [], st => (.ok true, st)
  | a :: rest, st =>
    match has [toHasArg a, .fn (streamValidate vstream) ([], false)] st with
    | (.ok true, st') => hasStreamLoop vstream rest st'
    | (.ok false, st') => (.ok false, st')
    | (.error e, st') => (.error e, st')

/-- The `hasStream` method: defaults to port `in` only when the whole
argument list is empty (this check precedes the removal of a trailing
function), pops a trailing function as the stream validator, and ANDs the
per-port complete-stream checks. -/
def hasStream (params : List StreamArg) (st : PState) : Except JsErr Bool × PState :=
  let args := if params.isEmpty then [StreamArg.str "in"] else params
  match args.getLast? with
  | some (.sfn f) => hasStreamLoop f args.dropLast st
  | _ => hasStreamLoop (fun _ _ => true) args st

/-- Arguments accepted by `get` (and `getData`/`getStream`): a plain port
name or a `[name, idx]` array. -/
inductive GetArg where
  | str (s : String)
  | pair (name : String) (idx : Nat)
deriving DecidableEq, Repr

/-- Argument validation of `get` for one port argument: the source reads
`this.ports[portname].isAddressable()` without an existence check, so an
unknown port crashes with a TypeError; an addressability mismatch throws an
explicit `Error`. -/
def resolvePort (a : GetArg) (st : PState) : Except JsErr (String × Option Nat) :=
  match a with
  | .pair name i =>
    match lookupPort st name with
    | none => .error (.typeError "Cannot read property isAddressable of undefined")
    | some p =>
      if !p.addressable then
        .error (.error "Non-addressable ports, access must be with string portname")
      else .ok (name, some i)
  | .str name =>
    match lookupPort st name with
    | none => .error (.typeError "Cannot read property isAddressable of undefined")
    | some p =>
      if p.addressable then
        .error (.error "For addressable ports, access must be with array portname idx")
      else .ok (name, none)

/-- External `InPort.get(scope, idx)`: dequeue the next packet of the
`(port, idx)` buffer, FIFO; `none` on an empty buffer. -/
def portGet (port : String) (idx : Option Nat) (st : PState) : Option IP × PState :=
  match getBuffer st port idx with
  | [] => (none, st)
  | ip :: rest => (some ip, setBuffer st port idx rest)

/-- The first read loop of `__getForForwarding`: dequeue packets until a
data packet is hit (consumed, returned) or the buffer runs out; the bracket
packets read before it form the prefix. Returns
`(prefix, dataPacket?, remainingBuffer)`. -/
def readToData : List IP → List IP × Option IP × List IP
  | [] => ([], none, [])
  | ip :: rest =>
    match ip.type with
    | IPType.data => ([], some ip, rest)
    | _ =>
      let r := readToData rest
      (ip :: r.1, r.2.1, r.2.2)

/-- Ensure `result.__bracketClosingBefore` exists (`if (!...) ... = []`). -/
def initClosedBefore (st : PState) : PState :=
  { st with result :=
      { st.result with bracketClosingBefore := some (st.result.bracketClosingBefore.getD []) } }

/-- Append a popped frame to `result.__bracketClosingBefore` (JS `push`
appends at the end, preserving order). -/
def pushClosedBefore (st : PState) (f : Frame) : PState :=
  { st with result :=
      { st.result with
        bracketClosingBefore := some (st.result.bracketClosingBefore.getD [] ++ [f]) } }

/-- Record the bracket-context snapshot for a port on the result:
`result.__bracketContext[port] = stack.slice(0)`; `slice(0)` copies the
array, so the snapshot stores the stack's current value. -/
def setBracketContext (st : PState) (port : String) (s : List Frame) : PState :=
  { st with result :=
      { st.result with
        bracketContext := some (setAssoc port s (st.result.bracketContext.getD [])) } }

/-- The prefix-processing loop of `__getForForwarding`: a close bracket pops
the live bracket-context stack — popping an empty stack yields `undefined`
and the subsequent `context.closeIp = ip` assignment crashes with a
TypeError — and appends the popped frame (with its close packet attached) to
`result.__bracketClosingBefore`; an open bracket pushes a fresh frame. -/
def processPre (port : String) (idx : Option Nat) :
    List IP → PState → Except JsErr Unit × PState
  | [], st => (.ok (), st)
  | ip :: rest, st =>
    match ip.type with
    | IPType.closeBracket =>
      let st1 := initClosedBefore st
      match getStack st1 port idx with
      | [] => (.error (.typeError "Cannot set property closeIp of undefined"), st1)
      | f :: fs =>
        let st2 := setStack st1 port idx fs
        let st3 := pushClosedBefore st2 { f with closeIp := some ip }
        processPre port idx rest st3
    | IPType.openBracket =>
      let st1 := pushFrame st port idx { ip := ip, ports := [], source := port, closeIp := none }
      processPre port idx rest st1
    | IPType.data => processPre port idx rest st

/-- The `__getForForwarding` method: drain the buffer up to (and including)
the next data packet, replay the bracket prefix onto the live
bracket-context stack and the invocation result, snapshot the stack into
`result.__bracketContext[port]`, and return the data packet (or `none` if
the buffer ran out). -/
def getForForwarding (port : String) (idx : Option Nat) (st : PState) :
    Except JsErr (Option IP) × PState :=
  let r := readToData (getBuffer st port idx)
  let st1 := setBuffer st port idx r.2.2
  match processPre port idx r.1 st1 with
  | (.error e, st2) => (.error e, st2)
  | (.ok _, st2) => (.ok r.2.1, setBracketContext st2 port (getStack st2 port idx))

/-- Loop body of `get`: validate each port argument, then either a
forwarding read or a plain dequeue, collecting the packets positionally. -/
def getLoop : List GetArg → List (Option IP) → PState →
    Except JsErr (List (Option IP)) × PState
  | [], acc, st => (.ok acc, st)
  | a :: rest, acc, st =>
    match resolvePort a st with
    | .error e => (.error e, st)
    | .ok pi =>
      let r :=
        if pi.1 ∈ st.forwarding then getForForwarding pi.1 pi.2 st
        else
          let g := portGet pi.1 pi.2 st
          (.ok g.1, g.2)
      match r with
      | (.error e, st') => (.error e, st')
      | (.ok ip, st') => getLoop rest (acc ++ [ip]) st'

/-- The `get` method: always activates first, defaults to port `in` on a
zero-argument call, then reads every requested port; one argument yields the
single packet (`res[0]`), several yield the positional array. -/
def get (params : List GetArg) (st : PState) :
    Except JsErr (OneOrMany (Option IP)) × PState :=
  let st0 := activate st
  let args := if params.isEmpty then [GetArg.str "in"] else params
  match getLoop args [] st0 with
  | (.error e, st') => (.error e, st')
  | (.ok res, st') =>
    if args.length = 1 then (.ok (.one (res.headD none)), st')
    else (.ok (.many res), st')

/-- Single-argument use of `get`, as `getData`/`getStream` perform it. -/
def get1 (a : GetArg) (st : PState) : Except JsErr (Option IP) × PState :=
  match get [a] st with
  | (.ok (.one x), st') => (.ok x, st')
  | (.ok (.many l), st') => (.ok (l.headD none), st')
  | (.error e, st') => (.error e, st')

/-- The `while (packet.type !== 'data')` loop of `getData`: keeps reading
until a data packet appears; if the buffer runs out first, the packet is
`null` and the subsequent `datas.push(packet.data)` crashes with a
TypeError. Fuel bounds the iterations (each successful read consumes at
least one buffered packet). -/
def getDataStep (a : GetArg) : IP → Nat → PState → Except JsErr (Option Val) × PState
  | p, fuel, st =>
    match p.type with
    | IPType.data => (.ok (some p.data), st)
    | _ =>
      match fuel with
      | 0 => (.error (.error "out of fuel"), st)
      | f + 1 =>
        match get1 a st with
        | (.error e, st') => (.error e, st')
        | (.ok none, st') => (.error (.typeError "Cannot read property data of null"), st')
        | (.ok (some q), st') => getDataStep a q f st'

/-- Per-port body of `getData`: an immediately empty read contributes the
null packet itself (so positional alignment is preserved), otherwise the
data-seeking loop runs. -/
def getDataOne (a : GetArg) (st : PState) : Except JsErr (Option Val) × PState :=
  match get1 a st with
  | (.error e, st') => (.error e, st')
  | (.ok none, st') => (.ok none, st')
  | (.ok (some p), st') => getDataStep a p (totalSize st' + 1) st'

/-- Loop of `getData` over the requested ports. -/
def getDataPorts : List GetArg → List (Option Val) → PState →
    Except JsErr (List (Option Val)) × PState
  | [], acc, st => (.ok acc, st)
  | a :: rest, acc, st =>
    match getDataOne a st with
    | (.error e, st') => (.error e, st')
    | (.ok v, st') => getDataPorts rest (acc ++ [v]) st'

/-- The `getData` method: per port, read until a data payload (or the null
packet for an immediately empty buffer); one argument yields `datas.pop()`,
several the positional array. -/
def getData (params : List GetArg) (st : PState) :
    Except JsErr (OneOrMany (Option Val)) × PState :=
  let args := if params.isEmpty then [GetArg.str "in"] else params
  match getDataPorts args [] st with
  | (.error e, st') => (.error e, st')
  | (.ok datas, st') =>
    if args.length = 1 then (.ok (.one ((datas.getLast?).getD none)), st')
    else (.ok (.many datas), st')

/-- The working accumulator of one `getStream` port iteration: the open
bracket labels (head is top), the packets collected so far, and whether a
data packet has been seen. -/
structure StreamAcc where
  portBrackets : List Val
  portPackets : List IP
  hasData : Bool
deriving DecidableEq, Repr

/-- One iteration of the `getStream` while-loop body on a packet: an open
bracket at depth zero first resets the working list and the seen-data flag;
the returned flag says whether the loop breaks (stream complete). -/
def streamStep (acc : StreamAcc) (p : IP) : StreamAcc × Bool :=
  match p.type with
  | IPType.openBracket =>
    let acc1 := if acc.portBrackets.isEmpty then
      { portBrackets := [], portPackets := [], hasData := false }
    else acc
    ({ acc1 with
        portBrackets := p.data :: acc1.portBrackets,
        portPackets := acc1.portPackets ++ [p] }, false)
  | IPType.data =>
    let acc1 := { acc with portPackets := acc.portPackets ++ [p], hasData := true }
    (acc1, acc1.portBrackets.isEmpty)
  | IPType.closeBracket =>
    let acc1 := { acc with
      portPackets := acc.portPackets ++ [p],
      portBrackets := acc.portBrackets.tail }
    (acc1, acc1.hasData && acc1.portBrackets.isEmpty)

/-- The `while (ip)` loop of `getStream` for one port: step on each packet,
stop on completion or when the buffer yields no further packet (the partial
accumulation is returned). Fuel bounds the iterations. -/
def getStreamLoop (a : GetArg) : StreamAcc → Option IP → Nat → PState →
    Except JsErr (List IP) × PState
  | acc, none, _, st => (.ok acc.portPackets, st)
  | acc, some p, fuel, st =>
    let r := streamStep acc p
    if r.2 then (.ok r.1.portPackets, st)
    else
      match fuel with
      | 0 => (.error (.error "out of fuel"), st)
      | f + 1 =>
        match get1 a st with
        | (.error e, st') => (.error e, st')
        | (.ok ip, st') => getStreamLoop a r.1 ip f st'

/-- Loop of `getStream` over the requested ports: an immediately empty read
pushes `undefined` onto the result list, and the (then empty) working list
is pushed as well after the loop, exactly as in the source. -/
def getStreamPorts : List GetArg → List (Option (List IP)) → PState →
    Except JsErr (List (Option (List IP))) × PState
  | [], acc, st => (.ok acc, st)
  | a :: rest, acc, st =>
    match get1 a st with
    | (.error e, st') => (.error e, st')
    | (.ok ip, st') =>
      let acc1 := if ip.isNone then acc ++ [none] else acc
      match getStreamLoop a ⟨[], [], false⟩ ip (totalSize st' + 1) st' with
      | (.error e, st'') => (.error e, st'')
      | (.ok pp, st'') => getStreamPorts rest (acc1 ++ [some pp]) st''

/-- The `getStream` method: accumulate one complete framed sub-stream per
port; one argument yields `datas.pop()` (the last entry), several the
collected array. -/
def getStream (params : List GetArg) (st : PState) :
    Except JsErr (OneOrMany (Option (List IP))) × PState :=
  let args := if params.isEmpty then [GetArg.str "in"] else params
  match getStreamPorts args [] st with
  | (.error e, st') => (.error e, st')
  | (.ok datas, st') =>
    if args.length = 1 then (.ok (.one ((datas.getLast?).getD none)), st')
    else (.ok (.many datas), st')

/-- A precondition query, for stating purity of the precondition methods. -/
inductive Query where
  | qHas (params : List HasArg)
  | qHasData (params : List HasArg)
  | qHasStream (params : List StreamArg)

/-- Evaluate one precondition query. -/
def runQuery : Query → PState → Except JsErr Bool × PState
  | .qHas ps, st => has ps st
  | .qHasData ps, st => hasData ps st
  | .qHasStream ps, st => hasStream ps st

/-- The state left behind by a sequence of precondition queries. -/
def runQueries (qs : List Query) (st : PState) : PState :=
  qs.foldl (fun s q => (runQuery q s).2) st

/-! ### Concrete node fixtures used by the properties -/

/-- Fixture: one non-addressable forwarding inport `fwd` holding `buf`, with
empty bracket-context stacks, not yet activated. -/
def stFwd (buf : List IP) : PState :=
  { ports := [("fwd", { addressable := false, attachedList := [], buffers := [(none, buf)] })],
    activated := false, load := 0, ordered := false,
    forwarding := ["fwd"], brackets := [], result := ⟨none, none, none⟩ }

/-- Fixture: one non-addressable, non-forwarding inport `p` holding `buf`. -/
def stPlain (buf : List IP) : PState :=
  { ports := [("p", { addressable := false, attachedList := [], buffers := [(none, buf)] })],
    activated := false, load := 0, ordered := false,
    forwarding := [], brackets := [], result := ⟨none, none, none⟩ }

/-- Fixture: an empty default port `in` next to an addressable port `multi`
whose sub-port 0 holds one data packet. -/
def stMulti : PState :=
  { ports := [("in", { addressable := false, attachedList := [], buffers := [(none, [])] }),
              ("multi", { addressable := true, attachedList := [0], buffers := [(some 0, [mkData 5])] })],
    activated := false, load := 0, ordered := false,
    forwarding := [], brackets := [], result := ⟨none, none, none⟩ }

/-- Fixture: a node with no registered inports at all. -/
def stNoPorts : PState :=
  { ports := [], activated := false, load := 0, ordered := false,
    forwarding := [], brackets := [], result := ⟨none, none, none⟩ }

/-! ### Purity of the precondition queries -/

/-- The `has` method performs no state mutation. -/
lemma has_snd (params : List HasArg) (st : PState) : (has params st).2 = st := by
  unfold has
  split <;> rfl

/-- The `hasData` method performs no state mutation. -/
lemma hasData_snd (params : List HasArg) (st : PState) : (hasData params st).2 = st :=
  has_snd _ st

/-- The per-port loop of `hasStream` performs no state mutation. -/
lemma hasStreamLoop_snd (v : IP → List Val → Bool) :
    ∀ (args : List StreamArg) (st : PState), (hasStreamLoop v args st).2 = st := by
  intro args
  induction args with
  | nil => intro st; rfl
  | cons a rest ih =>
    intro st
    unfold hasStreamLoop
    split
    · rename_i st' heq
      have h2 := has_snd [toHasArg a, HasArg.fn (streamValidate v) ([], false)] st
      rw [heq] at h2
      exact (ih st').trans h2
    · rename_i st' heq
      have h2 := has_snd [toHasArg a, HasArg.fn (streamValidate v) ([], false)] st
      rw [heq] at h2
      exact h2
    · rename_i e st' heq
      have h2 := has_snd [toHasArg a, HasArg.fn (streamValidate v) ([], false)] st
      rw [heq] at h2
      exact h2

/-- The `hasStream` method performs no state mutation. -/
lemma hasStream_snd (params : List StreamArg) (st : PState) : (hasStream params st).2 = st := by
  simp only [hasStream]
  split <;> exact hasStreamLoop_snd _ _ st

/-- A single precondition query leaves the state unchanged. -/
lemma runQuery_snd (q : Query) (st : PState) : (runQuery q st).2 = st := by
  cases q with
  | qHas ps => exact has_snd ps st
  | qHasData ps => exact hasData_snd ps st
  | qHasStream ps => exact hasStream_snd ps st

/-- Any sequence of precondition queries leaves the state unchanged. -/
lemma runQueries_eq (qs : List Query) (st : PState) : runQueries qs st = st := by
  induction qs generalizing st with
  | nil => rfl
  | cons q rest ih =>
    show runQueries rest (runQuery q st).2 = st
    rw [runQuery_snd q st]
    exact ih st

/-! ### Preservation of the activation-related fields by the read path

Everything `get` does after `activate` touches only buffers, bracket
stacks, and the bracket fields of the result: the load counter, the
activation flag, the ordered flag and `result.__resolved` stay as
`activate` left them. -/

/-- The activation-related core of a state is unchanged from `s` to `t`. -/
def sameCore (s t : PState) : Prop :=
  t.load = s.load ∧ t.activated = s.activated ∧ t.ordered = s.ordered ∧
    t.result.resolved = s.result.resolved

lemma sameCore_refl (s : PState) : sameCore s s := ⟨rfl, rfl, rfl, rfl⟩

lemma sameCore_trans {a b c : PState} (h1 : sameCore a b) (h2 : sameCore b c) :
    sameCore a c :=
  ⟨h2.1.trans h1.1, h2.2.1.trans h1.2.1, h2.2.2.1.trans h1.2.2.1, h2.2.2.2.trans h1.2.2.2⟩

lemma sameCore_setBuffer (st : PState) (port : String) (idx : Option Nat) (buf : List IP) :
    sameCore st (setBuffer st port idx buf) := by
  unfold setBuffer
  split
  · exact sameCore_refl st
  · exact ⟨rfl, rfl, rfl, rfl⟩

lemma sameCore_setStack (st : PState) (port : String) (idx : Option Nat) (s : List Frame) :
    sameCore st (setStack st port idx s) :=
  ⟨rfl, rfl, rfl, rfl⟩

lemma sameCore_pushFrame (st : PState) (port : String) (idx : Option Nat) (f : Frame) :
    sameCore st (pushFrame st port idx f) :=
  ⟨rfl, rfl, rfl, rfl⟩

lemma sameCore_initClosedBefore (st : PState) : sameCore st (initClosedBefore st) :=
  ⟨rfl, rfl, rfl, rfl⟩

lemma sameCore_pushClosedBefore (st : PState) (f : Frame) :
    sameCore st (pushClosedBefore st f) :=
  ⟨rfl, rfl, rfl, rfl⟩

lemma sameCore_setBracketContext (st : PState) (port : String) (s : List Frame) :
    sameCore st (setBracketContext st port s) :=
  ⟨rfl, rfl, rfl, rfl⟩

lemma sameCore_portGet (port : String) (idx : Option Nat) (st : PState) :
    sameCore st (portGet port idx st).2 := by
  unfold portGet
  split
  · exact sameCore_refl st
  · exact sameCore_setBuffer st port idx _

lemma sameCore_processPre (port : String) (idx : Option Nat) :
    ∀ (l : List IP) (st : PState), sameCore st (processPre port idx l st).2 := by
  intro l
  induction l with
  | nil => intro st; exact sameCore_refl st
  | cons ip rest ih =>
    intro st
    unfold processPre
    split
    · dsimp only
      split
      · exact sameCore_initClosedBefore st
      · exact sameCore_trans
          (sameCore_trans
            (sameCore_trans (sameCore_initClosedBefore st) (sameCore_setStack _ port idx _))
            (sameCore_pushClosedBefore _ _))
          (ih _)
    · exact sameCore_trans (sameCore_pushFrame st port idx _) (ih _)
    · exact ih st

lemma sameCore_getForForwarding (port : String) (idx : Option Nat) (st : PState) :
    sameCore st (getForForwarding port idx st).2 := by
  unfold getForForwarding
  dsimp only
  have hbuf := sameCore_setBuffer st port idx
    (readToData (getBuffer st port idx)).2.2
  have h2 := sameCore_processPre port idx (readToData (getBuffer st port idx)).1
    (setBuffer st port idx (readToData (getBuffer st port idx)).2.2)
  rcases hpp : processPre port idx (readToData (getBuffer st port idx)).1
      (setBuffer st port idx (readToData (getBuffer st port idx)).2.2) with ⟨r, st2⟩
  rw [hpp] at h2
  cases r with
  | error e => exact sameCore_trans hbuf h2
  | ok u =>
    exact sameCore_trans (sameCore_trans hbuf h2) (sameCore_setBracketContext st2 port _)

lemma sameCore_getLoop :
    ∀ (args : List GetArg) (acc : List (Option IP)) (st : PState),
      sameCore st (getLoop args acc st).2 := by
  intro args
  induction args with
  | nil => intro acc st; exact sameCore_refl st
  | cons a rest ih =>
    intro acc st
    unfold getLoop
    split
    · exact sameCore_refl st
    · rename_i pi heq
      dsimp only
      by_cases hf : pi.1 ∈ st.forwarding
      · rw [if_pos hf]
        have hr := sameCore_getForForwarding pi.1 pi.2 st
        rcases hgf : getForForwarding pi.1 pi.2 st with ⟨r, st'⟩
        rw [hgf] at hr
        cases r with
        | error e => exact hr
        | ok ip => exact sameCore_trans hr (ih (acc ++ [ip]) st')
      · rw [if_neg hf]
        exact sameCore_trans (sameCore_portGet pi.1 pi.2 st)
          (ih (acc ++ [(portGet pi.1 pi.2 st).1]) (portGet pi.1 pi.2 st).2)

/-- After `activate`, the rest of `get` leaves the activation-related core
untouched. -/
lemma sameCore_get (params : List GetArg) (st : PState) :
    sameCore (activate st) (get params st).2 := by
  have h := sameCore_getLoop (if params.isEmpty then [GetArg.str "in"] else params) []
    (activate st)
  simp only [get]
  rcases hgl : getLoop (if params.isEmpty then [GetArg.str "in"] else params) []
      (activate st) with ⟨r, st'⟩
  rw [hgl] at h
  cases r with
  | error e => exact h
  | ok res =>
    dsimp only
    split <;> first
      | exact h
      | (split <;> exact h)

/-- Effect of `activate` on a not-yet-activated context. -/
lemma activate_fields (st : PState) (h : st.activated = false) :
    (activate st).load = st.load + 1 ∧ (activate st).activated = true ∧
      (activate st).ordered = st.ordered ∧
      (st.ordered = true → (activate st).result.resolved = some false) := by
  unfold activate
  rw [h]
  by_cases ho : st.ordered = true
  · simp [ho]
  · simp [ho]

/-- `activate` is a no-op on an already-activated context. -/
lemma activate_of_activated (st : PState) (h : st.activated = true) : activate st = st := by
  unfold activate
  rw [h]
  simp

/-! ### The claimed properties -/

/-- C1, counterexample: on a forwarding port whose buffer starts with a
close bracket while the bracket-context stack is empty, the read is NOT
surfaced as a distinct protocol-violation error — `pop()` on the empty stack
yields `undefined` and the `context.closeIp = ip` assignment crashes with an
engine TypeError (an undefined access), refuting the claimed behaviour. -/
theorem C1_pop_empty_counterexample :
    (get1 (GetArg.str "fwd") (stFwd [mkCB 7, mkData 1])).1
      = Except.error (JsErr.typeError "Cannot set property closeIp of undefined") := by
  rfl

/-- C1, amended: for every label and every remaining buffer content, a
forwarding read that meets a close bracket in the prefix while the
bracket-context stack for the port is empty crashes with the TypeError of
assigning to a property of `undefined`; the condition is not silent, but it
is an engine crash rather than a distinct error. -/
theorem C1_pop_empty_typeError (l : Val) (rest : List IP) :
    (get1 (GetArg.str "fwd") (stFwd (mkCB l :: rest))).1
      = Except.error (JsErr.typeError "Cannot set property closeIp of undefined") := by
  rfl

/-- C2: `has` filters its parameters down to strings, so the
`["multi", 0]` pair is dropped, the default port `in` is substituted, and
the empty `in` buffer yields `false` — the indexed sub-port `multi[0]`
(which holds a data packet) is never evaluated and no AddressabilityMismatch
is raised for the pair. A plain string name on the addressable port does
raise the addressability error. -/
theorem C2_has_pair_filtered :
    (has [HasArg.pair "multi" 0] stMulti).1 = Except.ok false
    ∧ (has [HasArg.str "multi"] stMulti).1
        = Except.error (JsErr.error "For addressable ports, access must be with array portname idx") := by
  exact ⟨rfl, rfl⟩

/-- C3: when a port's buffer holds a bracket but no data packet, `getData`
does not produce an absent value: the read loop exhausts the buffer, leaves
`packet` null, and the following `datas.push(packet.data)` crashes with a
TypeError. -/
theorem C3_getData_exhaustion_crash :
    (getData [GetArg.str "p"] (stPlain [mkOB 0])).1
      = Except.error (JsErr.typeError "Cannot read property data of null") := by
  rfl

/-- C4: on a forwarding port holding `[OpenBracket l, Data x, CloseBracket l]`,
one `getData` call returns payload `x`, pushes exactly one frame (for the
open bracket, labelled `l`) onto the live bracket-context stack, and stores
in `result.__bracketContext` for that port a snapshot equal to that
one-frame stack; a later push onto or pop from the live stack leaves the
snapshot unchanged. -/
theorem C4_forwarding_snapshot (x l : Val) (f : Frame) :
    (getData [GetArg.str "fwd"] (stFwd [mkOB l, mkData x, mkCB l])).1
      = Except.ok (OneOrMany.one (some x))
    ∧ getStack (getData [GetArg.str "fwd"] (stFwd [mkOB l, mkData x, mkCB l])).2 "fwd" none
      = [⟨mkOB l, [], "fwd", none⟩]
    ∧ findAssoc "fwd"
        (((getData [GetArg.str "fwd"] (stFwd [mkOB l, mkData x, mkCB l])).2).result.bracketContext.getD [])
      = some [⟨mkOB l, [], "fwd", none⟩]
    ∧ findAssoc "fwd"
        ((pushFrame (getData [GetArg.str "fwd"] (stFwd [mkOB l, mkData x, mkCB l])).2
            "fwd" none f).result.bracketContext.getD [])
      = some [⟨mkOB l, [], "fwd", none⟩]
    ∧ findAssoc "fwd"
        ((setStack (getData [GetArg.str "fwd"] (stFwd [mkOB l, mkData x, mkCB l])).2
            "fwd" none
            (getStack (getData [GetArg.str "fwd"] (stFwd [mkOB l, mkData x, mkCB l])).2
              "fwd" none).tail).result.bracketContext.getD [])
      = some [⟨mkOB l, [], "fwd", none⟩] := by
  exact ⟨rfl, rfl, rfl, rfl, rfl⟩

/-- C5, counterexample: `getStream` on
`[OpenBracket, Data, OpenBracket, Data, CloseBracket]` returns ALL FIVE
packets, not the final three: the second open bracket arrives at depth 1
(the first bracket never closed), so the depth-0 reset never fires and
nothing is discarded. -/
theorem C5_missing_close_counterexample :
    (getStream [GetArg.str "p"] (stPlain [mkOB 1, mkData 10, mkOB 2, mkData 20, mkCB 2])).1
      = Except.ok (OneOrMany.one (some [mkOB 1, mkData 10, mkOB 2, mkData 20, mkCB 2])) := by
  rfl

/-- C5, amended: an open bracket processed while the bracket depth is zero
does reset the working packet list and the seen-data flag, discarding any
prior accumulation (first conjunct, for every prior accumulation; shown in a
full run by the third conjunct, where a stray leading close bracket is
discarded); but on `[OpenBracket, Data, OpenBracket, Data, CloseBracket]`
the second open bracket arrives at depth 1, so `getStream` returns all five
packets as one (truncated) stream (second conjunct). -/
theorem C5_reset_at_depth_zero (l : Val) (pp : List IP) (hd : Bool) :
    streamStep ⟨[], pp, hd⟩ (mkOB l) = (⟨[l], [mkOB l], false⟩, false)
    ∧ (getStream [GetArg.str "p"] (stPlain [mkOB 1, mkData 10, mkOB 2, mkData 20, mkCB 2])).1
        = Except.ok (OneOrMany.one (some [mkOB 1, mkData 10, mkOB 2, mkData 20, mkCB 2]))
    ∧ (getStream [GetArg.str "p"] (stPlain [mkCB 0, mkOB 1, mkData 10, mkCB 1])).1
        = Except.ok (OneOrMany.one (some [mkOB 1, mkData 10, mkCB 1])) := by
  exact ⟨rfl, rfl, rfl⟩

/-- C6: precondition queries are pure — any sequence of `has`, `hasData`
and `hasStream` calls leaves the state untouched, so a subsequent `get`
returns exactly what it would have returned without them. -/
theorem C6_precondition_purity (qs : List Query) (args : List GetArg) (st : PState) :
    get args (runQueries qs st) = get args st := by
  rw [runQueries_eq]

/-- C7: every `get` call activates first (even when no packet is available,
and even when the requested port does not exist), and within one invocation
the activate side effect — load increment, activated mark, and for ordered
components `resolved := false` — happens exactly once: a second `get` finds
the context activated and changes none of these fields. -/
theorem C7_activate_once (args1 args2 : List GetArg) (st : PState)
    (h : st.activated = false) :
    (get args1 st).2.activated = true
    ∧ (get args1 st).2.load = st.load + 1
    ∧ (st.ordered = true → (get args1 st).2.result.resolved = some false)
    ∧ (get args2 (get args1 st).2).2.activated = true
    ∧ (get args2 (get args1 st).2).2.load = st.load + 1
    ∧ (st.ordered = true → (get args2 (get args1 st).2).2.result.resolved = some false) := by
  have hf := activate_fields st h
  have h1 := sameCore_get args1 st
  have e1a : (get args1 st).2.activated = true := h1.2.1.trans hf.2.1
  have e1l : (get args1 st).2.load = st.load + 1 := h1.1.trans hf.1
  have e1r : st.ordered = true → (get args1 st).2.result.resolved = some false :=
    fun ho => h1.2.2.2.trans (hf.2.2.2 ho)
  have h2 := sameCore_get args2 (get args1 st).2
  rw [activate_of_activated _ e1a] at h2
  refine ⟨e1a, e1l, e1r, h2.2.1.trans e1a, h2.1.trans e1l, fun ho => h2.2.2.2.trans (e1r ho)⟩

/-- Witness for C7 at a concrete node: a fresh single-port node with an
empty buffer is not activated; after one `get` the load is 1 and the context
is activated, and a second `get` leaves both unchanged. -/
theorem C7_activate_once_witness :
    (stPlain []).activated = false
    ∧ ((get [] (stPlain [])).2.activated = true
        ∧ (get [] (stPlain [])).2.load = (stPlain []).load + 1
        ∧ ((stPlain []).ordered = true →
            (get [] (stPlain [])).2.result.resolved = some false)
        ∧ (get [GetArg.str "p"] (get [] (stPlain [])).2).2.activated = true
        ∧ (get [GetArg.str "p"] (get [] (stPlain [])).2).2.load = (stPlain []).load + 1
        ∧ ((stPlain []).ordered = true →
            (get [GetArg.str "p"] (get [] (stPlain [])).2).2.result.resolved = some false)) :=
  ⟨rfl, C7_activate_once [] [GetArg.str "p"] (stPlain []) rfl⟩

/-- C8: a port whose buffer holds exactly one data packet (no brackets)
satisfies `hasStream`, and `getStream` returns the one-element stream
consisting of that packet, for every payload. -/
theorem C8_single_data_stream (x : Val) :
    (hasStream [StreamArg.str "p"] (stPlain [mkData x])).1 = Except.ok true
    ∧ (getStream [GetArg.str "p"] (stPlain [mkData x])).1
        = Except.ok (OneOrMany.one (some [mkData x])) := by
  exact ⟨rfl, rfl⟩

/-- C9, counterexample: requesting an unregistered port from `get` does not
surface the UnknownPort error — the source reads
`this.ports[portname].isAddressable()` without an existence check, so the
call crashes with an engine TypeError instead. -/
theorem C9_get_unknown_counterexample :
    (get [GetArg.str "nope"] stMulti).1
      = Except.error (JsErr.typeError "Cannot read property isAddressable of undefined") := by
  rfl

/-- C9, amended: for every state and every unregistered port name,
`attached`, `has` and `hasData` surface the explicit UnknownPort error
immediately, while `get` crashes with the TypeError of calling
`isAddressable` on `undefined` instead of an UnknownPort error. -/
theorem C9_unknown_port (name : String) (st : PState)
    (h : lookupPort st name = none) :
    attached [name] st = Except.error (JsErr.error ("Node has no port " ++ name))
    ∧ (has [HasArg.str name] st).1
        = Except.error (JsErr.error ("Node has no port " ++ name))
    ∧ (hasData [HasArg.str name] st).1
        = Except.error (JsErr.error ("Node has no port " ++ name))
    ∧ (get [GetArg.str name] st).1
        = Except.error (JsErr.typeError "Cannot read property isAddressable of undefined") := by
  have hports : (activate st).ports = st.ports := by
    unfold activate
    split
    · rfl
    · split <;> rfl
  have hlp : lookupPort (activate st) name = none := by
    unfold lookupPort at h ⊢
    rw [hports]
    exact h
  refine ⟨?_, ?_, ?_, ?_⟩
  · simp [attached, attachedLoop, h]
  · simp [has, hasLoop, h]
  · simp [hasData, has, hasLoop, h]
  · simp [get, getLoop, resolvePort, hlp]

/-- Witness for C9 at a concrete node: a node with no registered ports. -/
theorem C9_unknown_port_witness :
    lookupPort stNoPorts "nope" = none
    ∧ (attached ["nope"] stNoPorts
        = Except.error (JsErr.error ("Node has no port " ++ "nope"))
      ∧ (has [HasArg.str "nope"] stNoPorts).1
          = Except.error (JsErr.error ("Node has no port " ++ "nope"))
      ∧ (hasData [HasArg.str "nope"] stNoPorts).1
          = Except.error (JsErr.error ("Node has no port " ++ "nope"))
      ∧ (get [GetArg.str "nope"] stNoPorts).1
          = Except.error (JsErr.typeError "Cannot read property isAddressable of undefined")) :=
  ⟨rfl, C9_unknown_port "nope" stNoPorts rfl⟩

/-- C10: when `hasStream` receives a stream predicate as its only argument,
the emptiness check that would substitute the default port `in` sees a
non-empty argument list and does not fire; the trailing function is then
popped, the remaining port list is empty, and the call returns `true` for
every state without inspecting any port buffer. -/
theorem C10_hasStream_fn_only (st : PState) (f : IP → List Val → Bool) :
    (hasStream [StreamArg.sfn f] st).1 = Except.ok true := by
  rfl

end NoFlo
